import Mathlib

/-!
Shallow embedding of the extension-detection subsystem of the w3ux library:
the static extension Registry (`Extensions` from `@w3ux/extension-assets`)
and the Extension Status Tracker (`ExtensionsProvider` from
`@w3ux/react-connect-kit`), together with proofs of its specified
properties.
-/

namespace W3ux

/-! ## Extension Registry (`Extensions` from extension-assets) -/

/-- The `category` field of an extension descriptor. -/
inductive Category
  | webExtension
  | hardware
deriving DecidableEq, Repr

/-- The `website` field: either a plain domain string or a `{url, text}` pair. -/
inductive Website
  | plain (domain : String)
  | structured (url text : String)
deriving DecidableEq, Repr

/-- The `features` field: the wildcard marker `"*"` or an explicit list of
capability names. -/
inductive Features
  | wildcard
  | explicit (fs : List String)
deriving DecidableEq, Repr

/-- `ExtensionConfig`: one descriptor of the static registry. -/
structure ExtensionConfig where
  title : String
  website : Website
  category : Category
  features : Features
deriving DecidableEq, Repr

/-- The static registry `Extensions : Record<string, ExtensionConfig>`,
entry for entry in source order. -/
def Extensions : List (String × ExtensionConfig) :=
  [ ("enkrypt",
      { title := "Enkrypt", website := .plain "enkrypt.com",
        category := .webExtension, features := .wildcard }),
    ("fearless-wallet",
      { title := "Fearless Wallet", website := .plain "fearlesswallet.io",
        category := .webExtension, features := .wildcard }),
    ("metamask-polkadot-snap",
      { title := "MetaMask Polkadot Snap",
        website := .structured "snaps.metamask.io/snap/npm/chainsafe/polkadot-snap"
          "snaps.metamask.io",
        category := .webExtension,
        features := .explicit ["getAccounts", "signer"] }),
    ("polkagate",
      { title := "PolkaGate", website := .plain "polkagate.xyz",
        category := .webExtension, features := .wildcard }),
    ("subwallet-js",
      { title := "SubWallet", website := .plain "subwallet.app",
        category := .webExtension, features := .wildcard }),
    ("talisman",
      { title := "Talisman", website := .plain "talisman.xyz",
        category := .webExtension, features := .wildcard }),
    ("polkadot-js",
      { title := "Polkadot JS", website := .plain "polkadot.js.org/extension",
        category := .webExtension, features := .wildcard }),
    ("nova-wallet",
      { title := "Nova Wallet", website := .plain "novawallet.io",
        category := .webExtension, features := .wildcard }),
    ("ledger",
      { title := "Ledger", website := .plain "ledger.com",
        category := .hardware, features := .explicit [] }),
    ("polkadotvault",
      { title := "Polkadot Vault", website := .plain "signer.parity.io/",
        category := .hardware, features := .explicit [] }),
    ("walletconnect",
      { title := "WalletConnect", website := .plain "walletconnect.com",
        category := .hardware, features := .explicit [] }) ]

/-- JavaScript property access `extensions[id]`: `some` descriptor when `id`
is a key of the registry, `none` (i.e. `undefined`) otherwise. -/
def extensionsLookup (id : String) : Option ExtensionConfig :=
  (Extensions.find? (fun p => p.1 == id)).map Prod.snd

/-! ## Status mapping and its operations

`extensionsStatus : Record<string, ExtensionStatus>` is embedded as an
association list in insertion order (JavaScript objects keep string keys in
insertion order, and the spread/`delete` operations below preserve it).
Status values beyond `installed`/`connected` are host-reported strings
treated opaquely, so the value type is `String`. -/

/-- The status mapping owned by the tracker. -/
abbrev StatusMap := List (String × String)

/-- JavaScript property access `extensionsStatus[id]`. -/
def getStatus (m : StatusMap) (id : String) : Option String :=
  (List.find? (fun p => p.1 == id) m).map Prod.snd

/-- `setExtensionStatus(id, status)`: the spread
`{...extensionsStatusRef.current, [id]: status}` overwrites the value of an
existing key in place, or appends a new key at the end. -/
def setExtensionStatus (m : StatusMap) (id status : String) : StatusMap :=
  if List.any m (fun p => p.1 == id) then
    List.map (fun p => if p.1 == id then (id, status) else p) m
  else m ++ [(id, status)]

/-- `removeExtensionStatus(id)`: copy the record and
`delete newExtensionsStatus[id]`. -/
def removeExtensionStatus (m : StatusMap) (id : String) : StatusMap :=
  List.filter (fun p => !(p.1 == id)) m

/-- `extensionInstalled(id)`: `extensionsStatus[id] !== undefined`. -/
def extensionInstalled (m : StatusMap) (id : String) : Bool :=
  (getStatus m id).isSome

/-- `extensionCanConnect(id)`:
`extensionInstalled(id) && extensionsStatus[id] !== "connected"`. -/
def extensionCanConnect (m : StatusMap) (id : String) : Bool :=
  extensionInstalled m id && !(getStatus m id == some "connected")

/-- `extensionHasFeature(id, feature)`: the source destructures
`const { features } = extensions[id]` with no absence check, so when `id` is
not a registry key the access yields `undefined` and the destructuring throws
a `TypeError`; the thrown case is embedded as `none`. Otherwise the result is
`features === "*" || features.includes(feature)`. -/
def extensionHasFeature (id feature : String) : Option Bool :=
  match extensionsLookup id with
  | none => none
  | some cfg =>
    match cfg.features with
    | .wildcard => some true
    | .explicit fs => some (List.contains fs feature)

/-! ## Extension Status Tracker (`ExtensionsProvider`)

The tracker is driven single-threadedly by the event loop: interval ticks
(one every `checkEveryMs` milliseconds) and consumer calls to
`setExtensionStatus` / `removeExtensionStatus`. The React state pair
`(useState, useRef)` kept in sync by `setStateWithRef` is one logical value,
embedded as one field. -/

/-- `checkEveryMs = 300`: the interval duration. -/
def checkEveryMs : Nat := 300

/-- `totalChecks = 10`: the number of interval iterations before giving up. -/
def totalChecks : Nat := 10

/-- The 500ms bound passed to `withTimeout` around the snap probe. -/
def snapTimeoutMs : Nat := 500

/-- How the asynchronous `web3Enable("snap_only")` probe settles relative to
the 500ms bound: it resolves in time, it rejects, or the timeout elapses
first. -/
inductive SnapOutcome
  | resolved
  | rejected
  | timedOut
deriving DecidableEq, Repr

/-- Modelled from the spec: `withTimeout` of `@w3ux/utils` is repository code
not among the provided sources. Per the spec the probe is "bounded by a fixed
timeout (500ms) — if the probe does not resolve within the timeout, proceed
as if it failed, without error propagation", and "the snap probe's failure
(timeout or rejection) is swallowed". So the awaited call settles with
`some ()` on resolution and with `none` on rejection or timeout; it never
throws. -/
def withTimeout (ms : Nat) (outcome : SnapOutcome) : Option Unit :=
  match ms, outcome with
  | _, .resolved => some ()
  | _, .rejected => none
  | _, .timedOut => none

/-- Construction options of `ExtensionsProvider`:
`{ chainSafeSnapEnabled?: boolean; polkagateSnapEnabled?: boolean }`. -/
structure ProviderOptions where
  chainSafeSnapEnabled : Option Bool
  polkagateSnapEnabled : Option Bool
deriving DecidableEq, Repr

/-- `polkaGateSnapEnabled`: initialised once from
`options?.polkagateSnapEnabled || false`. -/
def polkaGateSnapEnabled (options : Option ProviderOptions) : Bool :=
  (options.bind ProviderOptions.polkagateSnapEnabled).getD false

/-- The tracker's mutable state: the `checkingInjectedWeb3` flag (state and
ref), whether the repeating interval is still live, the tick counter
`injectCounter`, the status mapping, and whether the snap probe has been
issued (used to observe that the probe is never sent when disabled). -/
structure TrackerState where
  checkingInjectedWeb3 : Bool
  intervalActive : Bool
  injectCounter : Nat
  extensionsStatus : StatusMap
  snapProbeIssued : Bool
deriving DecidableEq, Repr

/-- Tracker state at mount: `checkingInjectedWeb3` starts `true`, the
interval has been started by the mount effect, the counter is 0 and the
status mapping is `{}`. -/
def initTracker : TrackerState :=
  { checkingInjectedWeb3 := true
    intervalActive := true
    injectCounter := 0
    extensionsStatus := []
    snapProbeIssued := false }

/-- `handleSnapInjection`: if `polkaGateSnapEnabled`, await the probe under
`withTimeout` (its settled value is discarded), then unconditionally set
`checkingInjectedWeb3` to `false`. -/
def handleSnapInjection (snapEnabled : Bool) (outcome : SnapOutcome)
    (s : TrackerState) : TrackerState :=
  let s1 :=
    if snapEnabled then
      match withTimeout snapTimeoutMs outcome with
      | some () => { s with snapProbeIssued := true }
      | none => { s with snapProbeIssued := true }
    else s
  { s1 with checkingInjectedWeb3 := false }

/-- `handleClearInterval`: clear the repeating interval, then check for the
Metamask Polkadot Snap. -/
def handleClearInterval (snapEnabled : Bool) (outcome : SnapOutcome)
    (s : TrackerState) : TrackerState :=
  handleSnapInjection snapEnabled outcome { s with intervalActive := false }

/-- One event on the tracker's single logical thread: an interval tick (with
the eventual outcome of the snap probe, consulted only on the tick that
reaches the bound), or a consumer mutation. -/
inductive Event
  | tick (outcome : SnapOutcome)
  | setStatus (id status : String)
  | removeStatus (id : String)
deriving DecidableEq, Repr

/-- One step of the tracker. A tick only occurs while the interval is live
(`clearInterval` stops further ticks); it increments `injectCounter` and, on
reaching `totalChecks`, runs `handleClearInterval`. Consumer mutations apply
the status-map operations. -/
def step (snapEnabled : Bool) (s : TrackerState) : Event → TrackerState
  | .tick outcome =>
    if s.intervalActive then
      if s.injectCounter + 1 = totalChecks then
        handleClearInterval snapEnabled outcome
          { s with injectCounter := s.injectCounter + 1 }
      else { s with injectCounter := s.injectCounter + 1 }
    else s
  | .setStatus id status =>
    { s with extensionsStatus := setExtensionStatus s.extensionsStatus id status }
  | .removeStatus id =>
    { s with extensionsStatus := removeExtensionStatus s.extensionsStatus id }

/-- Run the tracker from mount through a list of events. -/
def run (snapEnabled : Bool) (evs : List Event) : TrackerState :=
  evs.foldl (step snapEnabled) initTracker

/-- Run the provider as constructed with its options record. -/
def providerRun (options : Option ProviderOptions) (evs : List Event) :
    TrackerState :=
  run (polkaGateSnapEnabled options) evs

/-- The number of interval ticks in an event list. -/
def tickCount (evs : List Event) : Nat :=
  List.countP (fun e => match e with | .tick _ => true | _ => false) evs

/-! ## Lemmas about the status mapping -/

/-- If some key of `m` equals `id`, the first entry of the overwritten list
whose key is `id` is the fresh pair `(id, status)`. -/
theorem find?_overwrite_self (m : StatusMap) (id status : String)
    (h : List.any m (fun p => p.1 == id) = true) :
    List.find? (fun p => p.1 == id)
      (List.map (fun p => if p.1 == id then (id, status) else p) m)
      = some (id, status) := by
  induction m with
  | nil => simp at h
  | cons a t ih =>
    simp only [List.any_cons, Bool.or_eq_true] at h
    rw [List.map_cons]
    by_cases ha : (a.1 == id) = true
    · rw [if_pos ha,
        List.find?_cons_of_pos (p := fun (q : String × String) => q.1 == id) _ (beq_self_eq_true id)]
    · have ht : List.any t (fun p => p.1 == id) = true := h.resolve_left ha
      rw [if_neg ha, List.find?_cons_of_neg (p := fun (q : String × String) => q.1 == id) _ ha]
      exact ih ht

/-- Overwriting the entry of key `id` does not move the first entry of any
other key `j`. -/
theorem find?_overwrite_other (m : StatusMap) (id status j : String)
    (hBeq : (id == j) = false) :
    List.find? (fun p => p.1 == j)
      (List.map (fun p => if p.1 == id then (id, status) else p) m)
      = List.find? (fun p => p.1 == j) m := by
  induction m with
  | nil => rfl
  | cons a t ih =>
    rw [List.map_cons]
    by_cases ha : (a.1 == id) = true
    · have ha' : a.1 = id := by simpa using ha
      have haj : ¬((a.1 == j) = true) := by rw [ha', hBeq]; exact Bool.false_ne_true
      rw [if_pos ha,
        List.find?_cons_of_neg (p := fun (q : String × String) => q.1 == j) _ (show ¬((id == j) = true) by
          rw [hBeq]; exact Bool.false_ne_true),
        List.find?_cons_of_neg (p := fun (q : String × String) => q.1 == j) _ haj]
      exact ih
    · by_cases haj : (a.1 == j) = true
      · rw [if_neg ha, List.find?_cons_of_pos (p := fun (q : String × String) => q.1 == j) _ haj,
          List.find?_cons_of_pos (p := fun (q : String × String) => q.1 == j) _ haj]
      · rw [if_neg ha, List.find?_cons_of_neg (p := fun (q : String × String) => q.1 == j) _ haj,
          List.find?_cons_of_neg (p := fun (q : String × String) => q.1 == j) _ haj]
        exact ih

/-- After `setExtensionStatus m id status`, looking up `id` yields `status`. -/
theorem getStatus_set_self (m : StatusMap) (id status : String) :
    getStatus (setExtensionStatus m id status) id = some status := by
  unfold setExtensionStatus
  by_cases h : List.any m (fun p => p.1 == id) = true
  · rw [if_pos h]
    unfold getStatus
    rw [find?_overwrite_self m id status h]
    rfl
  · rw [if_neg h]
    have hnone : List.find? (fun p => p.1 == id) m = none := by
      rw [List.find?_eq_none]
      intro x hx hpx
      exact h (List.any_eq_true.mpr ⟨x, hx, hpx⟩)
    unfold getStatus
    rw [List.find?_append, hnone]
    simp [List.find?_cons]

/-- `setExtensionStatus m id status` leaves the lookup of every other key
unchanged. -/
theorem getStatus_set_other (m : StatusMap) (id status j : String)
    (hj : j ≠ id) :
    getStatus (setExtensionStatus m id status) j = getStatus m j := by
  have hBeq : (id == j) = false := by
    simp only [beq_eq_false_iff_ne, ne_eq]
    exact fun hij => hj hij.symm
  unfold setExtensionStatus
  by_cases h : List.any m (fun p => p.1 == id) = true
  · rw [if_pos h]
    unfold getStatus
    rw [find?_overwrite_other m id status j hBeq]
  · rw [if_neg h]
    unfold getStatus
    rw [List.find?_append]
    cases hm : List.find? (fun p => p.1 == j) m with
    | some v => simp
    | none => simp [List.find?_cons, hBeq]

/-- A key with no record is untouched by `removeExtensionStatus`. -/
theorem remove_absent_eq (m : StatusMap) (id : String)
    (h : getStatus m id = none) :
    removeExtensionStatus m id = m := by
  have hfind : List.find? (fun p => p.1 == id) m = none := by
    unfold getStatus at h
    exact Option.map_eq_none'.mp h
  unfold removeExtensionStatus
  rw [List.filter_eq_self]
  intro a ha
  have := (List.find?_eq_none.mp hfind) a ha
  simpa using this

/-! ## Claim theorems -/

/-- C1 counterexample: `hasFeature` on an id absent from the Registry does
not return `false`; the unchecked destructuring of `extensions[id]` fails
(embedded as `none`), contradicting the claimed defensive default. -/
theorem hasFeature_unknown_not_false :
    extensionsLookup "foo-wallet" = none ∧
      extensionHasFeature "foo-wallet" "signer" ≠ some false := by
  constructor
  · decide
  · decide

/-- C1 (amended): for every id that is not a key of the Registry and every
feature string, `extensionHasFeature` does not return `false` — the lookup
failure itself propagates (the `TypeError` of destructuring `undefined`,
embedded as `none`). -/
theorem hasFeature_unknown_propagates (id feature : String)
    (h : extensionsLookup id = none) :
    extensionHasFeature id feature = none := by
  unfold extensionHasFeature
  rw [h]

/-- C1 witness: the amended theorem applied at the concrete absent id. -/
theorem hasFeature_unknown_propagates_witness :
    extensionHasFeature "foo-wallet" "signer" = none :=
  hasFeature_unknown_propagates "foo-wallet" "signer" (by decide)

/-- C7: for a Registry id whose descriptor has the wildcard marker,
`extensionHasFeature` is true for every feature string; for one with an
explicit feature list it is true exactly on members of that list (hence
false everywhere for the empty hardware lists). -/
theorem hasFeature_known_spec (id : String) (cfg : ExtensionConfig)
    (h : extensionsLookup id = some cfg) :
    (cfg.features = Features.wildcard →
      ∀ feature, extensionHasFeature id feature = some true) ∧
    (∀ fs, cfg.features = Features.explicit fs →
      ∀ feature, extensionHasFeature id feature = some (List.contains fs feature)) := by
  constructor
  · intro hw feature
    simp only [extensionHasFeature, h, hw]
  · intro fs hf feature
    simp only [extensionHasFeature, h, hf]

/-- C7 witness: applied at the wildcard descriptor `enkrypt` and the
empty-feature hardware descriptor `ledger`. -/
theorem hasFeature_known_spec_witness :
    extensionHasFeature "enkrypt" "signer" = some true ∧
      extensionHasFeature "ledger" "signer" = some false := by
  constructor
  · exact (hasFeature_known_spec "enkrypt"
      ⟨"Enkrypt", .plain "enkrypt.com", .webExtension, .wildcard⟩
      (by decide)).1 rfl "signer"
  · exact (hasFeature_known_spec "ledger"
      ⟨"Ledger", .plain "ledger.com", .hardware, .explicit []⟩
      (by decide)).2 [] rfl "signer"

/-- C4: `extensionInstalled` is true exactly when a status record exists,
whatever its value; `extensionCanConnect` is true exactly when a record
exists and its status is not `"connected"`; and concretely, after setting a
status of `"installed"` both hold, and after `"connected"` the extension can
no longer connect. -/
theorem installed_canConnect_spec (m : StatusMap) (id x : String) :
    (extensionInstalled m id = true ↔ ∃ p ∈ m, p.1 = id) ∧
    (extensionCanConnect m id = true ↔
      ((∃ p ∈ m, p.1 = id) ∧ getStatus m id ≠ some "connected")) ∧
    extensionInstalled (setExtensionStatus m x "installed") x = true ∧
    extensionCanConnect (setExtensionStatus m x "installed") x = true ∧
    extensionCanConnect (setExtensionStatus m x "connected") x = false := by
  have hinst : extensionInstalled m id = true ↔ ∃ p ∈ m, p.1 = id := by
    unfold extensionInstalled getStatus
    rw [Option.isSome_map', List.find?_isSome]
    simp [beq_iff_eq]
  refine ⟨hinst, ?_, ?_, ?_, ?_⟩
  · unfold extensionCanConnect
    rw [Bool.and_eq_true, hinst]
    constructor
    · rintro ⟨h1, h2⟩
      exact ⟨h1, by simpa using h2⟩
    · rintro ⟨h1, h2⟩
      exact ⟨h1, by simpa using h2⟩
  · unfold extensionInstalled
    rw [getStatus_set_self]
    rfl
  · unfold extensionCanConnect extensionInstalled
    rw [getStatus_set_self]
    decide
  · unfold extensionCanConnect extensionInstalled
    rw [getStatus_set_self]
    decide

/-- C4 witness: the record-level consequences at a concrete mapping. -/
theorem installed_canConnect_spec_witness :
    extensionInstalled (setExtensionStatus [] "talisman" "installed") "talisman" = true ∧
    extensionCanConnect (setExtensionStatus [] "talisman" "installed") "talisman" = true ∧
    extensionCanConnect (setExtensionStatus [] "talisman" "connected") "talisman" = false :=
  ⟨(installed_canConnect_spec [] "x" "talisman").2.2.1,
   (installed_canConnect_spec [] "x" "talisman").2.2.2.1,
   (installed_canConnect_spec [] "x" "talisman").2.2.2.2⟩

/-- C5: `setExtensionStatus` upserts the entry of `id` and leaves every other
key's entry unchanged; in particular two successive sets of the same key on
the empty mapping leave exactly one entry carrying the second status. -/
theorem setStatus_upsert_frame (m : StatusMap) (id status : String) :
    getStatus (setExtensionStatus m id status) id = some status ∧
    (∀ j, j ≠ id → getStatus (setExtensionStatus m id status) j = getStatus m j) ∧
    setExtensionStatus (setExtensionStatus [] "talisman" "installed")
        "talisman" "connected" = [("talisman", "connected")] :=
  ⟨getStatus_set_self m id status,
   fun j hj => getStatus_set_other m id status j hj,
   by decide⟩

/-- C5 witness: the upsert and frame conjuncts at a concrete mapping. -/
theorem setStatus_upsert_frame_witness :
    getStatus (setExtensionStatus [("a-wallet", "installed")] "talisman" "connected")
        "talisman" = some "connected" ∧
    getStatus (setExtensionStatus [("a-wallet", "installed")] "talisman" "connected")
        "a-wallet" = getStatus [("a-wallet", "installed")] "a-wallet" :=
  ⟨(setStatus_upsert_frame [("a-wallet", "installed")] "talisman" "connected").1,
   (setStatus_upsert_frame [("a-wallet", "installed")] "talisman" "connected").2.1
     "a-wallet" (by decide)⟩

/-- C8: removing the status of an id with no record is a no-op, not an
error: the mapping is returned unchanged. -/
theorem removeStatus_absent_noop (m : StatusMap) (id : String)
    (h : getStatus m id = none) :
    removeExtensionStatus m id = m :=
  remove_absent_eq m id h

/-- C8 witness: removing an absent key from a concrete mapping. -/
theorem removeStatus_absent_noop_witness :
    removeExtensionStatus [("talisman", "installed")] "x-wallet"
      = [("talisman", "installed")] :=
  removeStatus_absent_noop [("talisman", "installed")] "x-wallet" (by decide)

/-- C10: on a mapping with no record for `id`, `removeExtensionStatus id`
undoes `setExtensionStatus id s` exactly, for every status value `s`. -/
theorem remove_set_roundtrip (m : StatusMap) (id s : String)
    (h : getStatus m id = none) :
    removeExtensionStatus (setExtensionStatus m id s) id = m := by
  have hfind : List.find? (fun p => p.1 == id) m = none :=
    Option.map_eq_none'.mp h
  have hany : ¬(List.any m (fun p => p.1 == id) = true) := by
    intro hc
    obtain ⟨q, hq, hpq⟩ := List.any_eq_true.mp hc
    exact (List.find?_eq_none.mp hfind) q hq hpq
  unfold setExtensionStatus
  rw [if_neg hany]
  unfold removeExtensionStatus
  rw [List.filter_append]
  rw [show List.filter (fun p => !(p.1 == id)) m = m from remove_absent_eq m id h]
  rw [show List.filter (fun p => !(p.1 == id)) [(id, s)] = [] by
    simp [List.filter]]
  simp

/-- C10 witness: set-then-remove of an absent key at a concrete mapping. -/
theorem remove_set_roundtrip_witness :
    removeExtensionStatus
        (setExtensionStatus [("a-wallet", "installed")] "talisman" "connected")
        "talisman"
      = [("a-wallet", "installed")] :=
  remove_set_roundtrip [("a-wallet", "installed")] "talisman" "connected" (by decide)

/-! ## Tracker lifecycle lemmas -/

/-- Field values of `handleClearInterval`: it ends the detection phase
(`checkingInjectedWeb3 = false`), leaves the interval cancelled, and touches
neither the tick counter nor the status mapping. -/
theorem handleClear_fields (b : Bool) (o : SnapOutcome) (s : TrackerState) :
    (handleClearInterval b o s).checkingInjectedWeb3 = false ∧
    (handleClearInterval b o s).intervalActive = false ∧
    (handleClearInterval b o s).injectCounter = s.injectCounter ∧
    (handleClearInterval b o s).extensionsStatus = s.extensionsStatus := by
  cases b <;> cases o <;> exact ⟨rfl, rfl, rfl, rfl⟩

/-- The inductive invariant of the detection phase, indexed by the number of
ticks seen so far: while fewer than `totalChecks` ticks have fired, the
tracker is still checking with a live interval and the counter equals the
tick count; from the `totalChecks`-th tick on, checking is over, the
interval is cancelled and the counter is pegged at `totalChecks`. -/
def trackerInv (s : TrackerState) (n : Nat) : Prop :=
  s.checkingInjectedWeb3 = decide (n < totalChecks) ∧
  s.intervalActive = decide (n < totalChecks) ∧
  s.injectCounter = min n totalChecks

theorem trackerInv_init : trackerInv initTracker 0 := by
  refine ⟨?_, ?_, ?_⟩ <;> decide

theorem trackerInv_step_tick (b : Bool) (o : SnapOutcome) (s : TrackerState)
    (n : Nat) (h : trackerInv s n) :
    trackerInv (step b s (.tick o)) (n + 1) := by
  obtain ⟨hc, hi, hn⟩ := h
  by_cases hlt : n < totalChecks
  · have hia : s.intervalActive = true := by rw [hi]; exact decide_eq_true hlt
    have hcnt : s.injectCounter = n := by
      rw [hn]; exact Nat.min_eq_left (Nat.le_of_lt hlt)
    by_cases h10 : n + 1 = totalChecks
    · have hstep : step b s (.tick o)
          = handleClearInterval b o { s with injectCounter := n + 1 } := by
        simp [step, hia, hcnt, h10]
      rw [hstep]
      obtain ⟨f1, f2, f3, f4⟩ :=
        handleClear_fields b o { s with injectCounter := n + 1 }
      refine ⟨?_, ?_, ?_⟩
      · rw [f1, h10]
        simp [totalChecks]
      · rw [f2, h10]
        simp [totalChecks]
      · rw [f3, h10]
        simp
    · have hstep : step b s (.tick o) = { s with injectCounter := n + 1 } := by
        simp [step, hia, hcnt, h10]
      rw [hstep]
      have hlt' : n + 1 < totalChecks :=
        Nat.lt_of_le_of_ne (Nat.succ_le_of_lt hlt) h10
      refine ⟨?_, ?_, ?_⟩
      · simp [hc, decide_eq_true hlt, decide_eq_true hlt']
      · simp [hi, decide_eq_true hlt, decide_eq_true hlt']
      · show n + 1 = min (n + 1) totalChecks
        exact (Nat.min_eq_left (Nat.le_of_lt hlt')).symm
  · have hia : s.intervalActive = false := by rw [hi]; exact decide_eq_false hlt
    have hlt' : ¬(n + 1 < totalChecks) := fun hcon => hlt (Nat.lt_of_succ_lt hcon)
    have h10 : totalChecks ≤ n := Nat.le_of_not_lt hlt
    have hstep : step b s (.tick o) = s := by
      simp [step, hia]
    rw [hstep]
    refine ⟨?_, ?_, ?_⟩
    · rw [hc, decide_eq_false hlt, decide_eq_false hlt']
    · rw [hi, decide_eq_false hlt, decide_eq_false hlt']
    · rw [hn, Nat.min_eq_right h10, Nat.min_eq_right (Nat.le_succ_of_le h10)]

theorem trackerInv_step_other (b : Bool) (s : TrackerState) (n : Nat)
    (h : trackerInv s n) :
    ∀ e : Event, (∀ o, e ≠ Event.tick o) → trackerInv (step b s e) n := by
  intro e he
  cases e with
  | tick o => exact absurd rfl (he o)
  | setStatus id status => exact h
  | removeStatus id => exact h

/-- Any run of the event loop preserves the detection invariant, advancing
its index by the number of ticks among the events. -/
theorem trackerInv_run (b : Bool) (evs : List Event) :
    ∀ (s : TrackerState) (n : Nat), trackerInv s n →
      trackerInv (List.foldl (step b) s evs) (n + tickCount evs) := by
  induction evs with
  | nil =>
    intro s n h
    simpa [tickCount] using h
  | cons e t ih =>
    intro s n h
    rw [List.foldl_cons]
    cases e with
    | tick o =>
      have h1 := trackerInv_step_tick b o s n h
      have h2 := ih _ _ h1
      have harith : n + 1 + tickCount t = n + tickCount (Event.tick o :: t) := by
        simp [tickCount, List.countP_cons]
        omega
      rwa [harith] at h2
    | setStatus id status =>
      have h1 := trackerInv_step_other b s n h (.setStatus id status) (by intro o hco; cases hco)
      have h2 := ih _ _ h1
      have harith : tickCount (Event.setStatus id status :: t) = tickCount t := by
        simp [tickCount, List.countP_cons]
      rwa [harith]
    | removeStatus id =>
      have h1 := trackerInv_step_other b s n h (.removeStatus id) (by intro o hco; cases hco)
      have h2 := ih _ _ h1
      have harith : tickCount (Event.removeStatus id :: t) = tickCount t := by
        simp [tickCount, List.countP_cons]
      rwa [harith]

/-- `checkingInjectedWeb3` after any run equals whether the tick bound has
not yet been reached. -/
theorem run_checking (b : Bool) (evs : List Event) :
    (run b evs).checkingInjectedWeb3 = decide (tickCount evs < totalChecks) := by
  have h := trackerInv_run b evs initTracker 0 trackerInv_init
  rw [Nat.zero_add] at h
  exact h.1

/-- No single step ever turns `checkingInjectedWeb3` back on. -/
theorem step_checking_mono (b : Bool) (s : TrackerState) (e : Event)
    (h : s.checkingInjectedWeb3 = false) :
    (step b s e).checkingInjectedWeb3 = false := by
  cases e with
  | tick o =>
    simp only [step]
    by_cases hia : s.intervalActive = true
    · rw [if_pos hia]
      by_cases h10 : s.injectCounter + 1 = totalChecks
      · rw [if_pos h10]
        exact (handleClear_fields b o _).1
      · rw [if_neg h10]
        exact h
    · rw [if_neg hia]
      exact h
  | setStatus id status => exact h
  | removeStatus id => exact h

/-- C2: `checkingInjectedWeb3` is true at construction; after any run of the
event loop it is false exactly when the bound of `totalChecks` ticks of the
`checkEveryMs` interval has been reached (the snap probe settling, or the
`snapTimeoutMs` timeout elapsing, on that tick); and no later step — tick or
status mutation — ever sets it back to true. -/
theorem checking_lifecycle (b : Bool) (evs : List Event) :
    checkEveryMs = 300 ∧ totalChecks = 10 ∧ snapTimeoutMs = 500 ∧
    initTracker.checkingInjectedWeb3 = true ∧
    ((run b evs).checkingInjectedWeb3 = false ↔ totalChecks ≤ tickCount evs) ∧
    (∀ (s : TrackerState) (e : Event), s.checkingInjectedWeb3 = false →
      (step b s e).checkingInjectedWeb3 = false) := by
  refine ⟨rfl, rfl, rfl, rfl, ?_, fun s e hs => step_checking_mono b s e hs⟩
  rw [run_checking]
  rw [decide_eq_false_iff_not]
  exact Nat.not_lt

/-- C2 witness: ten ticks turn the flag off, and a further event leaves it
off. -/
theorem checking_lifecycle_witness :
    (run true (List.replicate 10 (Event.tick SnapOutcome.rejected))).checkingInjectedWeb3
        = false ∧
    (step true (run true (List.replicate 10 (Event.tick SnapOutcome.rejected)))
        (Event.setStatus "talisman" "installed")).checkingInjectedWeb3 = false := by
  have h := checking_lifecycle true (List.replicate 10 (Event.tick SnapOutcome.rejected))
  have hoff := (h.2.2.2.2.1).mpr (by decide)
  exact ⟨hoff, h.2.2.2.2.2 _ _ hoff⟩

/-- C3: whenever the snap probe is issued, every way it settles — resolution,
rejection, or the 500ms timeout elapsing first — is swallowed: the handler
returns normally with `checkingInjectedWeb3 = false`, and the resulting
state is identical to the success case. -/
theorem snap_failure_swallowed (o : SnapOutcome) (s : TrackerState) :
    (handleSnapInjection true o s).checkingInjectedWeb3 = false ∧
    handleSnapInjection true o s = handleSnapInjection true SnapOutcome.resolved s := by
  cases o <;> exact ⟨rfl, rfl⟩

/-- C6: with the snap option disabled the probe is never issued on any run,
and after the ten poll ticks alone the tracker is Ready with an empty status
mapping. -/
theorem snap_disabled_ready_without_probe (evs : List Event) (o : SnapOutcome) :
    (run false evs).snapProbeIssued = false ∧
    (run false (List.replicate totalChecks (Event.tick o))).checkingInjectedWeb3
        = false ∧
    (run false (List.replicate totalChecks (Event.tick o))).snapProbeIssued
        = false ∧
    (run false (List.replicate totalChecks (Event.tick o))).extensionsStatus
        = [] := by
  have hstepProbe : ∀ (s : TrackerState) (e : Event),
      (step false s e).snapProbeIssued = s.snapProbeIssued := by
    intro s e
    cases e with
    | tick o2 =>
      simp only [step]
      by_cases hia : s.intervalActive = true
      · rw [if_pos hia]
        by_cases h10 : s.injectCounter + 1 = totalChecks
        · rw [if_pos h10]
          cases o2 <;> rfl
        · rw [if_neg h10]
      · rw [if_neg hia]
    | setStatus id status => rfl
    | removeStatus id => rfl
  have hallProbe : ∀ (l : List Event) (s : TrackerState),
      (List.foldl (step false) s l).snapProbeIssued = s.snapProbeIssued := by
    intro l
    induction l with
    | nil => intro s; rfl
    | cons e t ih =>
      intro s
      rw [List.foldl_cons, ih, hstepProbe]
  refine ⟨hallProbe evs initTracker, ?_, ?_, ?_⟩ <;> cases o <;> decide

/-- C9: the `chainSafeSnapEnabled` construction option has no effect — two
provider runs identical except for its value produce identical tracker
states, hence the same status mapping, the same `checkingInjectedWeb3` flag,
and the same answer to every query. -/
theorem chainSafe_option_no_effect (c1 c2 p : Option Bool) (evs : List Event)
    (id feature : String) :
    providerRun (some ⟨c1, p⟩) evs = providerRun (some ⟨c2, p⟩) evs ∧
    (providerRun (some ⟨c1, p⟩) evs).extensionsStatus
        = (providerRun (some ⟨c2, p⟩) evs).extensionsStatus ∧
    (providerRun (some ⟨c1, p⟩) evs).checkingInjectedWeb3
        = (providerRun (some ⟨c2, p⟩) evs).checkingInjectedWeb3 ∧
    extensionInstalled (providerRun (some ⟨c1, p⟩) evs).extensionsStatus id
        = extensionInstalled (providerRun (some ⟨c2, p⟩) evs).extensionsStatus id ∧
    extensionCanConnect (providerRun (some ⟨c1, p⟩) evs).extensionsStatus id
        = extensionCanConnect (providerRun (some ⟨c2, p⟩) evs).extensionsStatus id ∧
    extensionHasFeature id feature = extensionHasFeature id feature :=
  ⟨rfl, rfl, rfl, rfl, rfl, rfl⟩

end W3ux
